import Mathlib

/-!
Verification of the smart-checkout-service repository (TypeScript source):
the pricing engine (`src/pricing.ts`), the order repository
(`src/repository.ts`) and the Lambda checkout handler (`src/checkout.ts`)
are shallowly embedded below, and the specification's claims about them
are settled as theorems.

JavaScript numbers are IEEE-754 binary64 values.  Every numeric value that
the pricing pipeline manipulates is a non-negative integer or the product
of a non-negative integer with the double literal `0.08`, so all values are
dyadic rationals and the double arithmetic can be modelled exactly with
natural-number arithmetic: a multiplication or addition computes the exact
result and then rounds it to 53 significant bits (round-to-nearest,
ties-to-even), which is the IEEE-754 operation as long as no overflow or
underflow occurs (our theorems stay far below the overflow threshold 2^1024
and all values are ≥ 1 or 0, so neither occurs).
-/

set_option maxRecDepth 4000

namespace SmartCheckout

/-- Number of times `n` must be halved before it drops below `2^53`;
the first argument is structural fuel (`120` suffices for every `n < 2^173`,
far above anything produced here).  `sh n` is the exponent of the rounding
granularity `2^(sh n)` of the binary64 format at magnitude `n`. -/
def shAux : Nat → Nat → Nat
  | 0, _ => 0
  | f + 1, n => if n < 2 ^ 53 then 0 else shAux f (n / 2) + 1

def sh (n : Nat) : Nat := shAux 120 n

/-- Round `n` to a multiple of `2^s`, round-to-nearest with ties to the
even multiple: the IEEE-754 significand rounding at granularity `2^s`. -/
def roundAt (s n : Nat) : Nat :=
  let q := n / 2 ^ s
  let r := n % 2 ^ s
  if r < 2 ^ (s - 1) then q * 2 ^ s
  else if 2 ^ (s - 1) < r then (q + 1) * 2 ^ s
  else if q % 2 = 0 then q * 2 ^ s else (q + 1) * 2 ^ s

/-- Round a non-negative integer to the nearest binary64 value
(53 significant bits, ties to even).  Integers below `2^53` are exact. -/
def roundSig53 (n : Nat) : Nat :=
  if n < 2 ^ 53 then n else roundAt (sh n) n

/-- JavaScript `a * b` on two integer-valued doubles (exact product, then
binary64 rounding). -/
def jsMul (a b : Nat) : Nat := roundSig53 (a * b)

/-- JavaScript `a + b` on two integer-valued doubles. -/
def jsAdd (a b : Nat) : Nat := roundSig53 (a + b)

/-- The binary64 value of the JavaScript literal `0.08`, scaled by `2^56`:
`0.08` lies in `[2^-4, 2^-3)`, where the format's granularity is `2^-56`,
and `0.08 * 2^56 = 5764607523034234.88` rounds to `5764607523034235`. -/
def C008 : Nat := 5764607523034235

/-- JavaScript `Math.floor(subtotal * 0.08)` for a non-negative
integer-valued double `subtotal` (src/pricing.ts line 17): the exact
product `subtotal * C008 / 2^56` is rounded to binary64 and then floored. -/
def jsTax (subtotal : Nat) : Nat :=
  roundSig53 (subtotal * C008) / 2 ^ 56

-- ---------------------------------------------------------------------------
-- Pricing engine (src/pricing.ts, `calculatePricing`)
-- ---------------------------------------------------------------------------

/-- A cart item as validated by the handler (src/types.ts `CheckoutItem`):
`unitPrice` and `quantity` are positive integers after validation, so they
are carried as naturals. -/
structure CheckoutItem where
  productId : String
  name : String
  unitPrice : Nat
  quantity : Nat
  deriving DecidableEq, Repr

/-- A priced line item (src/types.ts `OrderItem`). -/
structure OrderItem where
  productId : String
  name : String
  unitPrice : Nat
  quantity : Nat
  lineTotal : Nat
  deriving DecidableEq, Repr

structure PricingResult where
  items : List OrderItem
  subtotal : Nat
  tax : Nat
  total : Nat
  deriving DecidableEq, Repr

/-- Embedding of `calculatePricing` (src/pricing.ts lines 10-21).  Each
JavaScript arithmetic operation is a binary64 operation: the line-total
multiplication, every addition performed by `reduce`, the tax
multiplication-and-floor, and the final addition. -/
def calculatePricing (items : List CheckoutItem) : PricingResult :=
  let orderItems : List OrderItem := items.map fun item =>
    { productId := item.productId
      name := item.name
      unitPrice := item.unitPrice
      quantity := item.quantity
      lineTotal := jsMul item.unitPrice item.quantity }
  let subtotal := orderItems.foldl (fun sum item => jsAdd sum item.lineTotal) 0
  let tax := jsTax subtotal
  let total := jsAdd subtotal tax
  { items := orderItems, subtotal := subtotal, tax := tax, total := total }

-- ---------------------------------------------------------------------------
-- Orders and the repository (src/types.ts, src/repository.ts)
-- ---------------------------------------------------------------------------

/-- The durable order record (src/types.ts `Order`).  `status` is carried as
a string; the source fixes it to the literal `"CONFIRMED"`. -/
structure Order where
  orderId : String
  cartId : String
  customerId : String
  items : List OrderItem
  subtotal : Nat
  tax : Nat
  total : Nat
  status : String
  createdAt : String
  deriving DecidableEq, Repr

/-- Outcome of one DynamoDB conditional `PutCommand`
(src/repository.ts lines 40-46): success, `ConditionalCheckFailedException`,
or any other thrown error. -/
inductive PutOutcome where
  | success
  | condFailed
  | otherError (e : String)
  deriving DecidableEq, Repr

/-- The DynamoDB document client, abstracted to the two commands the
repository issues.  `get` may also fail (the store being unavailable),
modelled with `Except`. -/
structure StoreClient where
  put : Order → PutOutcome
  get : String → Except String (Option Order)

/-- Embedding of `getOrderByCartId` (src/repository.ts lines 17-26): a
side-effect-free read through the client. -/
def getOrderByCartId (client : StoreClient) (cartId : String) :
    Except String (Option Order) :=
  client.get cartId

structure CreateOrderResult where
  created : Bool
  order : Order
  deriving DecidableEq, Repr

/-- Embedding of `createOrder` (src/repository.ts lines 38-59): conditional
put; on `ConditionalCheckFailedException` re-read the existing record and
return it as the non-created result; if the re-read finds nothing, throw
(surface the inconsistency); any other error propagates. -/
def createOrder (client : StoreClient) (order : Order) :
    Except String CreateOrderResult :=
  match client.put order with
  | .success => .ok { created := true, order := order }
  | .otherError e => .error e
  | .condFailed =>
    match getOrderByCartId client order.cartId with
    | .error e => .error e
    | .ok (some existing) => .ok { created := false, order := existing }
    | .ok none =>
      .error ("Idempotency check failed: order for cartId " ++ order.cartId
        ++ " not found after conflict")

-- ---------------------------------------------------------------------------
-- JSON values and validation (src/checkout.ts lines 65-117)
-- ---------------------------------------------------------------------------

/-- A parsed JSON value.  Numbers are carried as rationals: every JSON
number a JavaScript program sees is a binary64 value, and the validation
code only asks `Number.isInteger` and order comparisons of them.
`JSON.parse` yields objects as field lists with distinct keys. -/
inductive JsValue where
  | null
  | bool (b : Bool)
  | num (q : Rat)
  | str (s : String)
  | arr (elems : List JsValue)
  | obj (fields : List (String × JsValue))

/-- Property access `raw['k']` on an object's field list (`none` models
JavaScript `undefined`). -/
def lookupField (fields : List (String × JsValue)) (key : String) :
    Option JsValue :=
  match fields with
  | [] => none
  | (k, v) :: rest => if k = key then some v else lookupField rest key

/-- One character class `[0-9a-f]` of `UUID_RE` under the `i` flag
(src/checkout.ts line 65): hexadecimal digit in either case. -/
def isHexDigit (c : Char) : Bool :=
  (decide ('0' ≤ c) && decide (c ≤ '9'))
    || (decide ('a' ≤ c) && decide (c ≤ 'f'))
    || (decide ('A' ≤ c) && decide (c ≤ 'F'))

/-- Consume exactly `n` hex digits from the front, returning the rest. -/
def takeHex : Nat → List Char → Option (List Char)
  | 0, cs => some cs
  | _ + 1, [] => none
  | n + 1, c :: cs => if isHexDigit c then takeHex n cs else none

/-- Consume one literal hyphen. -/
def expectDash : List Char → Option (List Char)
  | [] => none
  | c :: cs => if c = '-' then some cs else none

/-- Remainder of matching the body of `UUID_RE` against a character list:
the five hex runs of lengths 8, 4, 4, 4, 12 separated by hyphens. -/
def uuidRuns (cs : List Char) : Option (List Char) :=
  (((((((( takeHex 8 cs).bind expectDash).bind (takeHex 4)).bind
    expectDash).bind (takeHex 4)).bind expectDash).bind (takeHex 4)).bind
    expectDash).bind (takeHex 12)

/-- Embedding of `UUID_RE.test(s)` for the anchored regex
`/^[0-9a-f]{8}-[0-9a-f]{4}-[0-9a-f]{4}-[0-9a-f]{4}-[0-9a-f]{12}$/i`
(src/checkout.ts line 65): sequential match of the five hex runs separated
by hyphens, with nothing left over (the `^`/`$` anchors). -/
def UUID_RE_test (s : String) : Bool :=
  match uuidRuns s.toList with
  | none => false
  | some rest => rest.isEmpty

structure CheckoutRequest where
  cartId : String
  customerId : String
  items : List CheckoutItem
  deriving DecidableEq, Repr

/-- JavaScript `Number.isInteger` on a (finite) number value. -/
def isIntegerNum (q : Rat) : Bool := q.den = 1

/-- The per-item loop of `validateRequest` (src/checkout.ts lines 89-107),
returning the first failure message, or the projected items.  The source
keeps the raw objects (it casts them); the model projects the four checked
fields, which is all the later pipeline reads. -/
def validateItems : List JsValue → Except String (List CheckoutItem)
  | [] => .ok []
  | item :: rest =>
    match item with
    | .obj f =>
      match lookupField f "productId" with
      | some (.str pid) =>
        if pid = "" then .error "Each item must have a productId"
        else
          match lookupField f "name" with
          | some (.str nm) =>
            if nm = "" then .error "Each item must have a name"
            else
              match lookupField f "unitPrice" with
              | some (.num up) =>
                if isIntegerNum up && 0 < up then
                  match lookupField f "quantity" with
                  | some (.num qt) =>
                    if isIntegerNum qt && 1 ≤ qt then
                      match validateItems rest with
                      | .error m => .error m
                      | .ok tail =>
                        .ok (⟨pid, nm, up.num.toNat, qt.num.toNat⟩ :: tail)
                    else .error "quantity must be an integer >= 1"
                  | _ => .error "quantity must be an integer >= 1"
                else .error "unitPrice must be a positive integer (cents)"
              | _ => .error "unitPrice must be a positive integer (cents)"
          | _ => .error "Each item must have a name"
      | _ => .error "Each item must have a productId"
    | _ => .error "Each item must be an object"

/-- Embedding of `validateRequest` (src/checkout.ts lines 67-117), with the
source's check order and messages. -/
def validateRequest (body : JsValue) : Except String CheckoutRequest :=
  match body with
  | .obj fields =>
    match lookupField fields "cartId" with
    | some (.str cartId) =>
      if cartId = "" then .error "Missing or invalid cartId"
      else if ¬ UUID_RE_test cartId then .error "cartId must be a valid UUID"
      else
        match lookupField fields "customerId" with
        | some (.str customerId) =>
          if customerId = "" then .error "Missing or invalid customerId"
          else
            match lookupField fields "items" with
            | some (.arr rawItems) =>
              if rawItems.isEmpty then .error "Cart is empty"
              else
                match validateItems rawItems with
                | .error m => .error m
                | .ok items => .ok ⟨cartId, customerId, items⟩
            | _ => .error "Cart is empty"
        | _ => .error "Missing or invalid customerId"
    | _ => .error "Missing or invalid cartId"
  | _ => .error "Request body must be a JSON object"

-- ---------------------------------------------------------------------------
-- Lambda handler (src/checkout.ts lines 123-187)
-- ---------------------------------------------------------------------------

/-- An `APIGatewayProxyResult` with its JSON body kept structured
(serialization is transport glue). -/
inductive RespBody where
  | order (o : Order)
  | err (error : String) (message : String)
  deriving DecidableEq, Repr

structure ApiResult where
  statusCode : Nat
  body : RespBody
  deriving DecidableEq, Repr

/-- Embedding of the response helper `ok` (src/checkout.ts lines 37-43). -/
def respOk (o : Order) : ApiResult := ⟨200, .order o⟩

/-- Embedding of `validationError` (src/checkout.ts lines 45-51). -/
def validationError (message : String) : ApiResult :=
  ⟨400, .err "VALIDATION_ERROR" message⟩

/-- Embedding of `internalError` (src/checkout.ts lines 53-59). -/
def internalError : ApiResult :=
  ⟨500, .err "INTERNAL_ERROR" "An unexpected error occurred"⟩

/-- One observable external invocation made by the handler: the idempotency
probe read, the conditional create, or the payment capture (with the
arguments the source passes: `capturePayment(order.orderId, order.total)`). -/
inductive Ev where
  | storeGet (cartId : String)
  | storeCreate (order : Order)
  | payment (orderId : String) (total : Nat)
  deriving DecidableEq, Repr

/-- The handler's external collaborators: `JSON.parse` (returning `none`
when the source string is not valid JSON, in which case the source throws
and the handler answers 400), the DynamoDB client used by the repository,
and the injected ambient generators `randomUUID()` and
`new Date().toISOString()`. -/
structure Env where
  parse : String → Option JsValue
  client : StoreClient
  newId : String
  nowIso : String

/-- The candidate order the handler assembles before persisting
(src/checkout.ts lines 155-167): server-side pricing, a fresh `orderId`,
status `CONFIRMED` and the current timestamp. -/
def candidateOrder (env : Env) (req : CheckoutRequest) : Order :=
  let pricing := calculatePricing req.items
  { orderId := env.newId
    cartId := req.cartId
    customerId := req.customerId
    items := pricing.items
    subtotal := pricing.subtotal
    tax := pricing.tax
    total := pricing.total
    status := "CONFIRMED"
    createdAt := env.nowIso }

/-- Embedding of the Lambda `handler` (src/checkout.ts lines 123-187),
returning the response together with the trace of store/payment
invocations in the order they are awaited.  Failures (`Except.error`) of
the store operations take the source's catch-all path to `internalError`.
The source's `capturePayment` only writes a log line and cannot fail. -/
def handler (env : Env) (eventBody : Option String) : ApiResult × List Ev :=
  match env.parse (eventBody.getD "") with
  | none => (validationError "Invalid JSON body", [])
  | some body =>
    match validateRequest body with
    | .error m => (validationError m, [])
    | .ok req =>
      match getOrderByCartId env.client req.cartId with
      | .error _ => (internalError, [.storeGet req.cartId])
      | .ok (some existing) => (respOk existing, [.storeGet req.cartId])
      | .ok none =>
        let order := candidateOrder env req
        match createOrder env.client order with
        | .error _ =>
          (internalError, [.storeGet req.cartId, .storeCreate order])
        | .ok result =>
          if !result.created then
            (respOk result.order, [.storeGet req.cartId, .storeCreate order])
          else
            (respOk order,
              [.storeGet req.cartId, .storeCreate order,
                .payment order.orderId order.total])

/-- Recognizer for payment-capture events in a trace. -/
def isPayment (e : Ev) : Bool :=
  match e with
  | .payment _ _ => true
  | _ => false

-- ---------------------------------------------------------------------------
-- Specification-side predicates (written from the claims' wording, to be
-- compared with the source-derived definitions above)
-- ---------------------------------------------------------------------------

/-- A hexadecimal digit in either case (claim C10's wording). -/
def IsHexChar (c : Char) : Prop :=
  ('0' ≤ c ∧ c ≤ '9') ∨ ('a' ≤ c ∧ c ≤ 'f') ∨ ('A' ≤ c ∧ c ≤ 'F')

/-- The 8-4-4-4-12 hyphenated hexadecimal UUID shape (claim C10's wording):
five hyphen-separated groups of hex digits of lengths 8, 4, 4, 4, 12,
letters in upper, lower or mixed case. -/
def UuidShape (s : String) : Prop :=
  ∃ g1 g2 g3 g4 g5 : List Char,
    s.toList = g1 ++ '-' :: (g2 ++ '-' :: (g3 ++ '-' :: (g4 ++ '-' :: g5))) ∧
    g1.length = 8 ∧ g2.length = 4 ∧ g3.length = 4 ∧ g4.length = 4 ∧
    g5.length = 12 ∧
    (∀ c ∈ g1, IsHexChar c) ∧ (∀ c ∈ g2, IsHexChar c) ∧
    (∀ c ∈ g3, IsHexChar c) ∧ (∀ c ∈ g4, IsHexChar c) ∧
    (∀ c ∈ g5, IsHexChar c)

/-- One of the request defects enumerated by claim C5, read off an already
parsed JSON object body: missing `cartId`, missing `customerId`, empty
`items` array, an item with non-positive `unitPrice`, or an item with
`quantity < 1`. -/
def HasDefect (fields : List (String × JsValue)) : Prop :=
  lookupField fields "cartId" = none ∨
  lookupField fields "customerId" = none ∨
  lookupField fields "items" = some (.arr []) ∨
  (∃ its item f u, lookupField fields "items" = some (.arr its) ∧
    item ∈ its ∧ item = .obj f ∧
    lookupField f "unitPrice" = some (.num u) ∧ u ≤ 0) ∨
  (∃ its item f q, lookupField fields "items" = some (.arr its) ∧
    item ∈ its ∧ item = .obj f ∧
    lookupField f "quantity" = some (.num q) ∧ q < 1)

-- ---------------------------------------------------------------------------
-- Concrete fixtures used by witnesses
-- ---------------------------------------------------------------------------

/-- An otherwise-valid request body whose `cartId` is the given string. -/
def templateBody (s : String) : JsValue :=
  .obj
    [("cartId", .str s),
     ("customerId", .str "customer-1"),
     ("items", .arr
       [.obj [("productId", .str "prod-1"), ("name", .str "T-Shirt"),
              ("unitPrice", .num 2000), ("quantity", .num 2)],
        .obj [("productId", .str "prod-2"), ("name", .str "Mug"),
              ("unitPrice", .num 1500), ("quantity", .num 1)]])]

def sampleCartId : String := "123e4567-e89b-12d3-a456-426614174000"

def sampleBody : JsValue := templateBody sampleCartId

def sampleItems : List CheckoutItem :=
  [⟨"prod-1", "T-Shirt", 2000, 2⟩, ⟨"prod-2", "Mug", 1500, 1⟩]

def sampleOrder : Order :=
  { orderId := "11111111-2222-3333-4444-555555555555"
    cartId := sampleCartId
    customerId := "customer-1"
    items := (calculatePricing sampleItems).items
    subtotal := 5500
    tax := 440
    total := 5940
    status := "CONFIRMED"
    createdAt := "2024-01-15T10:30:00.000Z" }

/-- Environment whose store already holds `sampleOrder` for every key. -/
def envDup : Env :=
  { parse := fun _ => some sampleBody
    client := { put := fun _ => .condFailed, get := fun _ => .ok (some sampleOrder) }
    newId := "99999999-8888-7777-6666-555555555555"
    nowIso := "2024-02-01T00:00:00.000Z" }

/-- Environment with an empty store where every conditional put succeeds. -/
def envFresh : Env :=
  { parse := fun _ => some sampleBody
    client := { put := fun _ => .success, get := fun _ => .ok none }
    newId := "99999999-8888-7777-6666-555555555555"
    nowIso := "2024-02-01T00:00:00.000Z" }

/-- Environment reproducing the store inconsistency of claim C6: the
conditional put reports a condition failure while every read finds no
record. -/
def envGhost : Env :=
  { parse := fun _ => some sampleBody
    client := { put := fun _ => .condFailed, get := fun _ => .ok none }
    newId := "99999999-8888-7777-6666-555555555555"
    nowIso := "2024-02-01T00:00:00.000Z" }

/-- Environment whose parser rejects every body string. -/
def envBadJson : Env :=
  { parse := fun _ => none
    client := { put := fun _ => .success, get := fun _ => .ok none }
    newId := "99999999-8888-7777-6666-555555555555"
    nowIso := "2024-02-01T00:00:00.000Z" }

/-- Fields of a body with `cartId` missing entirely (claim C5's first
defect). -/
def defectFields : List (String × JsValue) :=
  [("customerId", .str "customer-1"),
   ("items", .arr
     [.obj [("productId", .str "prod-1"), ("name", .str "T-Shirt"),
            ("unitPrice", .num 2000), ("quantity", .num 2)]])]

def defectBody : JsValue := .obj defectFields

def envDefect : Env :=
  { parse := fun _ => some defectBody
    client := { put := fun _ => .success, get := fun _ => .ok none }
    newId := "99999999-8888-7777-6666-555555555555"
    nowIso := "2024-02-01T00:00:00.000Z" }

-- ---------------------------------------------------------------------------
-- Rounding lemmas
-- ---------------------------------------------------------------------------

theorem shAux_le (f : Nat) : ∀ (n t : Nat), n / 2 ^ t < 2 ^ 53 → shAux f n ≤ t := by
  induction f with
  | zero => intro n t _; simp [shAux]
  | succ f ih =>
    intro n t h
    by_cases hn : n < 2 ^ 53
    · simp only [shAux]
      rw [if_pos hn]
      omega
    · have ht : 1 ≤ t := by
        rcases Nat.eq_zero_or_pos t with h0 | h1
        · subst h0; simp at h; omega
        · exact h1
      have h2 : 2 * 2 ^ (t - 1) = 2 ^ t := by
        rw [← pow_succ']
        congr 1
        omega
      have hdiv : n / 2 / 2 ^ (t - 1) = n / 2 ^ t := by
        rw [Nat.div_div_eq_div_mul, h2]
      have hrec := ih (n / 2) (t - 1) (by rw [hdiv]; exact h)
      simp only [shAux, if_neg hn]
      omega

theorem shAux_pos_min (f : Nat) :
    ∀ n, 1 ≤ shAux f n → 2 ^ 53 ≤ n / 2 ^ (shAux f n - 1) := by
  induction f with
  | zero => intro n h; simp [shAux] at h
  | succ f ih =>
    intro n h
    by_cases hn : n < 2 ^ 53
    · exfalso
      simp only [shAux] at h
      rw [if_pos hn] at h
      omega
    · simp only [shAux, if_neg hn] at h ⊢
      rcases Nat.eq_zero_or_pos (shAux f (n / 2)) with h0 | h1
      · simp [h0]
        omega
      · have hrec := ih (n / 2) h1
        have h2 : 2 * 2 ^ (shAux f (n / 2) - 1) = 2 ^ shAux f (n / 2) := by
          rw [← pow_succ']
          congr 1
          omega
        have hdiv : n / 2 / 2 ^ (shAux f (n / 2) - 1) = n / 2 ^ shAux f (n / 2) := by
          rw [Nat.div_div_eq_div_mul, h2]
        rw [Nat.add_sub_cancel]
        rw [hdiv] at hrec
        exact hrec

theorem sh_le {n t : Nat} (h : n / 2 ^ t < 2 ^ 53) : sh n ≤ t :=
  shAux_le 120 n t h

theorem sh_pos {n : Nat} (h : 2 ^ 53 ≤ n) : 1 ≤ sh n := by
  simp only [sh, shAux, if_neg (Nat.not_lt.2 h)]
  omega

theorem sh_min {n : Nat} (h : 1 ≤ sh n) : 2 ^ 53 ≤ n / 2 ^ (sh n - 1) :=
  shAux_pos_min 120 n h

theorem roundAt_bounds (s n : Nat) (hs : 1 ≤ s) :
    n / 2 ^ s * 2 ^ s ≤ roundAt s n ∧ roundAt s n ≤ n + 2 ^ (s - 1) := by
  have h2 : 2 ^ s = 2 ^ (s - 1) * 2 := by
    rw [← pow_succ]
    congr 1
    omega
  have hqr : n / 2 ^ s * 2 ^ s + n % 2 ^ s = n := Nat.div_add_mod' n (2 ^ s)
  have hr : n % 2 ^ s < 2 ^ s := Nat.mod_lt _ (by positivity)
  simp only [roundAt]
  have hq1 : (n / 2 ^ s + 1) * 2 ^ s = n / 2 ^ s * 2 ^ s + 2 ^ s := by ring
  rw [hq1]
  generalize hT : n / 2 ^ s * 2 ^ s = T at *
  generalize hP : 2 ^ (s - 1) = P at *
  generalize hQ : 2 ^ s = Q at *
  split_ifs <;> omega

theorem roundSig53_id {n : Nat} (h : n < 2 ^ 53) : roundSig53 n = n := by
  simp only [roundSig53, if_pos h]

theorem roundSig53_le_bound {n t : Nat} (hn : 2 ^ 53 ≤ n) (ht : 1 ≤ t)
    (h : n / 2 ^ t < 2 ^ 53) : roundSig53 n ≤ n + 2 ^ (t - 1) := by
  have hs1 : 1 ≤ sh n := sh_pos hn
  have hst : sh n ≤ t := sh_le h
  have hb := (roundAt_bounds (sh n) n hs1).2
  have hmono : 2 ^ (sh n - 1) ≤ 2 ^ (t - 1) :=
    Nat.pow_le_pow_right (by norm_num) (by omega)
  simp only [roundSig53, if_neg (Nat.not_lt.2 hn)]
  omega

theorem roundSig53_ge_grid {n m : Nat} (hsh : sh n ≤ 56) (hm : m * 2 ^ 56 ≤ n) :
    m * 2 ^ 56 ≤ roundSig53 n := by
  by_cases hn : n < 2 ^ 53
  · simp only [roundSig53, if_pos hn]
    exact hm
  · have hs1 : 1 ≤ sh n := sh_pos (Nat.not_lt.1 hn)
    have hb := (roundAt_bounds (sh n) n hs1).1
    have hsplit : 2 ^ 56 = 2 ^ (56 - sh n) * 2 ^ sh n := by
      rw [← pow_add]
      congr 1
      omega
    have hm' : m * 2 ^ (56 - sh n) ≤ n / 2 ^ sh n := by
      rw [Nat.le_div_iff_mul_le (by positivity)]
      calc m * 2 ^ (56 - sh n) * 2 ^ sh n
          = m * 2 ^ 56 := by rw [mul_assoc, ← hsplit]
        _ ≤ n := hm
    have hkey : m * 2 ^ 56 ≤ n / 2 ^ sh n * 2 ^ sh n := by
      calc m * 2 ^ 56 = m * 2 ^ (56 - sh n) * 2 ^ sh n := by
            rw [mul_assoc, ← hsplit]
        _ ≤ n / 2 ^ sh n * 2 ^ sh n := Nat.mul_le_mul_right _ hm'
    simp only [roundSig53, if_neg hn]
    omega

theorem roundSig53_le_double (n : Nat) : roundSig53 n ≤ 2 * n := by
  by_cases hn : n < 2 ^ 53
  · simp only [roundSig53, if_pos hn]
    omega
  · have hs1 : 1 ≤ sh n := sh_pos (Nat.not_lt.1 hn)
    have hmin := sh_min hs1
    have hP : 2 ^ (sh n - 1) ≤ n := by
      have h1 : 1 ≤ n / 2 ^ (sh n - 1) := le_trans (by norm_num) hmin
      exact (Nat.one_le_div_iff (by positivity)).1 h1
    have hb := (roundAt_bounds (sh n) n hs1).2
    simp only [roundSig53, if_neg hn]
    omega

theorem jsTax_le_self (s : Nat) : jsTax s ≤ s := by
  have hC : s * C008 = s * 5764607523034235 := rfl
  have hd := roundSig53_le_double (s * C008)
  simp only [jsTax]
  rw [hC] at hd ⊢
  omega

/-- Exactness of the tax computation for all subtotals below `2^51`: the
binary64 slip cannot cross an integer boundary there. -/
theorem jsTax_exact_below (s : Nat) (hs : s < 2 ^ 51) :
    jsTax s = s * 8 / 100 := by
  have hC : s * C008 = s * 5764607523034235 := rfl
  simp only [jsTax]
  rw [hC]
  by_cases hsm : s * 5764607523034235 < 2 ^ 53
  · have hs1 : s ≤ 1 := by omega
    interval_cases s
    · decide
    · decide
  · push_neg at hsm
    have hsh : sh (s * 5764607523034235) ≤ 56 := by
      apply sh_le
      omega
    have hlow : s * 8 / 100 * 2 ^ 56 ≤ roundSig53 (s * 5764607523034235) :=
      roundSig53_ge_grid hsh (by omega)
    have hup : roundSig53 (s * 5764607523034235) ≤
        s * 5764607523034235 + 2 ^ 50 := by
      have h51 := @roundSig53_le_bound (s * 5764607523034235) 51 hsm
        (by norm_num) (by omega)
      simpa using h51
    omega

-- ---------------------------------------------------------------------------
-- Pricing exactness lemmas
-- ---------------------------------------------------------------------------

theorem foldl_jsAdd_exact :
    ∀ (l : List Nat) (acc : Nat), acc + l.sum < 2 ^ 53 →
      l.foldl jsAdd acc = acc + l.sum := by
  intro l
  induction l with
  | nil => intro acc _; simp
  | cons x t ih =>
    intro acc h
    simp only [List.foldl_cons, List.sum_cons] at h ⊢
    have hx : jsAdd acc x = acc + x := roundSig53_id (by omega)
    rw [hx, ih (acc + x) (by omega)]
    omega

theorem pricing_lineTotals_exact (items : List CheckoutItem)
    (h : ∀ it ∈ items, it.unitPrice * it.quantity < 2 ^ 53) :
    (calculatePricing items).items = items.map fun it =>
      (⟨it.productId, it.name, it.unitPrice, it.quantity,
        it.unitPrice * it.quantity⟩ : OrderItem) := by
  simp only [calculatePricing]
  apply List.map_congr_left
  intro it hit
  simp only [jsMul, roundSig53_id (h it hit)]

theorem pricing_subtotal_exact (items : List CheckoutItem)
    (h : (items.map fun it => it.unitPrice * it.quantity).sum < 2 ^ 53) :
    (calculatePricing items).subtotal =
      (items.map fun it => it.unitPrice * it.quantity).sum := by
  have hmap : (calculatePricing items).items.map OrderItem.lineTotal =
      items.map fun it => it.unitPrice * it.quantity := by
    rw [pricing_lineTotals_exact items ?hperitem]
    · rw [List.map_map]
      rfl
    case hperitem =>
      intro it hit
      have hle : it.unitPrice * it.quantity ≤
          (items.map fun it => it.unitPrice * it.quantity).sum :=
        List.single_le_sum (by simp) _ (List.mem_map_of_mem _ hit)
      omega
  have hfold : (calculatePricing items).subtotal =
      ((calculatePricing items).items.map OrderItem.lineTotal).foldl jsAdd 0 := by
    rw [List.foldl_map]
    rfl
  rw [hfold, hmap, foldl_jsAdd_exact _ 0 (by omega)]
  omega

-- ---------------------------------------------------------------------------
-- Claim theorems: pricing (C3, C4, C7, C8)
-- ---------------------------------------------------------------------------

/-- C3, counterexample.  The pricing engine computes the tax of the valid
single-item cart `[{unitPrice: 7036874417766412, quantity: 1}]` as
`Math.floor(7036874417766412 * 0.08) = 562949953421313`, whereas the exact
truncating integer division gives
`7036874417766412 * 8 / 100 = 562949953421312`: the claim's equality does
not hold for every subtotal value, because the source multiplies by the
binary64 literal `0.08` before flooring. -/
theorem c3_tax_float_slip :
    (calculatePricing [⟨"item-1", "Widget", 7036874417766412, 1⟩]).tax ≠
      7036874417766412 * 8 / 100 := by decide

/-- C3, amended.  For every valid item list, the computed tax agrees with
the exact `floor(subtotal * 8 / 100)` whenever the computed subtotal is
below `2^51`; beyond that bound the intermediate binary64 product
`subtotal * 0.08` can cross an integer boundary (see the counterexample). -/
theorem c3_tax_exact_below_2pow51 (items : List CheckoutItem)
    (_hvalid : ∀ it ∈ items, 0 < it.unitPrice ∧ 1 ≤ it.quantity)
    (_hne : items ≠ [])
    (hsub : (calculatePricing items).subtotal < 2 ^ 51) :
    (calculatePricing items).tax =
      (calculatePricing items).subtotal * 8 / 100 := by
  have htax : (calculatePricing items).tax =
      jsTax ((calculatePricing items).subtotal) := rfl
  rw [htax]
  exact jsTax_exact_below _ hsub

theorem c3_tax_exact_below_2pow51_witness :
    (calculatePricing sampleItems).tax =
      (calculatePricing sampleItems).subtotal * 8 / 100 :=
  c3_tax_exact_below_2pow51 sampleItems (by decide) (by decide) (by decide)

/-- C4, counterexample.  For the valid single-item cart
`[{unitPrice: 4503599627370497, quantity: 3}]` (the unit price is `2^52+1`,
an exactly representable positive integer), the stored line total is the
binary64 product `4503599627370497 * 3 = 13510798882111492`, not the exact
mathematical product `13510798882111491`: `lineTotal_i = unitPrice_i ×
quantity_i` does not hold for every valid item list. -/
theorem c4_lineTotal_float_slip :
    (calculatePricing [⟨"item-1", "Widget", 4503599627370497, 3⟩]).items.map
        OrderItem.lineTotal ≠ [4503599627370497 * 3] := by decide

/-- C4, amended.  For every valid item list whose exact subtotal is below
`2^52` (all arithmetic then stays in the binary64-exact integer range),
`calculatePricing` returns each `lineTotal_i = unitPrice_i × quantity_i`
in the original order, `subtotal` equal to the sum of the line totals, and
`total = subtotal + tax`; all four quantities are non-negative integers
(they live in `Nat` in this model, `Math.floor` and binary64 operations on
integral values being integer-valued). -/
theorem c4_pricing_functional_bounded (items : List CheckoutItem)
    (_hvalid : ∀ it ∈ items, 0 < it.unitPrice ∧ 1 ≤ it.quantity)
    (_hne : items ≠ [])
    (hbound : (items.map fun it => it.unitPrice * it.quantity).sum < 2 ^ 52) :
    (calculatePricing items).items = (items.map fun it =>
      (⟨it.productId, it.name, it.unitPrice, it.quantity,
        it.unitPrice * it.quantity⟩ : OrderItem)) ∧
    (calculatePricing items).subtotal =
      (items.map fun it => it.unitPrice * it.quantity).sum ∧
    (calculatePricing items).total =
      (calculatePricing items).subtotal + (calculatePricing items).tax := by
  have hst := pricing_subtotal_exact items (by omega)
  refine ⟨pricing_lineTotals_exact items ?_, hst, ?_⟩
  · intro it hit
    have hle : it.unitPrice * it.quantity ≤
        (items.map fun it => it.unitPrice * it.quantity).sum :=
      List.single_le_sum (by simp) _ (List.mem_map_of_mem _ hit)
    omega
  · have htot : (calculatePricing items).total =
        jsAdd ((calculatePricing items).subtotal)
          ((calculatePricing items).tax) := rfl
    have htax : (calculatePricing items).tax =
        jsTax ((calculatePricing items).subtotal) := rfl
    have hle : jsTax ((calculatePricing items).subtotal) ≤
        (calculatePricing items).subtotal := jsTax_le_self _
    rw [htot]
    apply roundSig53_id
    omega

theorem c4_pricing_functional_bounded_witness :
    (calculatePricing sampleItems).items = (sampleItems.map fun it =>
      (⟨it.productId, it.name, it.unitPrice, it.quantity,
        it.unitPrice * it.quantity⟩ : OrderItem)) ∧
    (calculatePricing sampleItems).subtotal =
      (sampleItems.map fun it => it.unitPrice * it.quantity).sum ∧
    (calculatePricing sampleItems).total =
      (calculatePricing sampleItems).subtotal +
        (calculatePricing sampleItems).tax :=
  c4_pricing_functional_bounded sampleItems (by decide) (by decide) (by decide)

/-- C7.  On the concrete items
`[{unitPrice: 2000, quantity: 2}, {unitPrice: 1500, quantity: 1}]` the
pricing engine returns `subtotal = 5500`, `tax = 440`, `total = 5940`. -/
theorem c7_concrete_pricing :
    (calculatePricing
        [⟨"prod-1", "T-Shirt", 2000, 2⟩, ⟨"prod-2", "Mug", 1500, 1⟩]).subtotal
        = 5500 ∧
    (calculatePricing
        [⟨"prod-1", "T-Shirt", 2000, 2⟩, ⟨"prod-2", "Mug", 1500, 1⟩]).tax
        = 440 ∧
    (calculatePricing
        [⟨"prod-1", "T-Shirt", 2000, 2⟩, ⟨"prod-2", "Mug", 1500, 1⟩]).total
        = 5940 := by decide

/-- C8.  `calculatePricing` is total on the empty list: it returns no
items, `subtotal = 0`, `tax = 0` and `total = 0` rather than failing. -/
theorem c8_empty_pricing : calculatePricing [] = ⟨[], 0, 0, 0⟩ := by decide

-- ---------------------------------------------------------------------------
-- UUID regex lemmas (C10)
-- ---------------------------------------------------------------------------

theorem isHexDigit_iff (c : Char) : isHexDigit c = true ↔ IsHexChar c := by
  simp [isHexDigit, IsHexChar, or_assoc]

theorem takeHex_iff (n : Nat) :
    ∀ (cs rest : List Char), takeHex n cs = some rest ↔
      ∃ g, cs = g ++ rest ∧ g.length = n ∧ ∀ c ∈ g, isHexDigit c = true := by
  induction n with
  | zero =>
    intro cs rest
    simp only [takeHex, Option.some.injEq]
    constructor
    · intro h
      exact ⟨[], by simp [h], rfl, by simp⟩
    · rintro ⟨g, hcs, hlen, -⟩
      rw [List.length_eq_zero] at hlen
      subst hlen
      simpa using hcs
  | succ n ih =>
    intro cs rest
    constructor
    · intro h
      cases cs with
      | nil => simp [takeHex] at h
      | cons c cs' =>
        simp only [takeHex] at h
        by_cases hc : isHexDigit c
        · rw [if_pos hc] at h
          obtain ⟨g, hcs, hlen, hhex⟩ := (ih cs' rest).1 h
          refine ⟨c :: g, by simp [hcs], by simp [hlen], ?_⟩
          intro x hx
          rcases List.mem_cons.1 hx with h1 | h2
          · subst h1; exact hc
          · exact hhex x h2
        · rw [if_neg hc] at h
          exact absurd h (by simp)
    · rintro ⟨g, hcs, hlen, hhex⟩
      cases g with
      | nil => simp at hlen
      | cons c g' =>
        simp only [List.cons_append] at hcs
        subst hcs
        have hc : isHexDigit c = true := hhex c (by simp)
        simp only [takeHex, if_pos hc]
        refine (ih (g' ++ rest) rest).2 ⟨g', rfl, by simpa using hlen, ?_⟩
        intro x hx
        exact hhex x (by simp [hx])

theorem expectDash_iff (cs rest : List Char) :
    expectDash cs = some rest ↔ cs = '-' :: rest := by
  cases cs with
  | nil => simp [expectDash]
  | cons c cs' =>
    simp only [expectDash]
    by_cases hc : c = '-'
    · subst hc
      simp
    · rw [if_neg hc]
      simp [hc]

/-- The source regex accepts exactly the strings of the claimed
8-4-4-4-12 hyphenated hexadecimal shape, letters in either case. -/
theorem UUID_RE_test_iff (s : String) : UUID_RE_test s = true ↔ UuidShape s := by
  have hrw : UUID_RE_test s = true ↔ uuidRuns s.toList = some [] := by
    simp only [UUID_RE_test]
    cases h : uuidRuns s.toList with
    | none => simp
    | some rest => simp [List.isEmpty_iff]
  rw [hrw]
  simp only [uuidRuns, Option.bind_eq_some]
  constructor
  · rintro ⟨r8, ⟨r7, ⟨r6, ⟨r5, ⟨r4, ⟨r3, ⟨r2, ⟨r1, h1, h2⟩, h3⟩, h4⟩,
      h5⟩, h6⟩, h7⟩, h8⟩, h9⟩
    obtain ⟨g1, hc1, hl1, hh1⟩ := (takeHex_iff 8 _ _).1 h1
    rw [expectDash_iff] at h2 h4 h6 h8
    obtain ⟨g2, hc2, hl2, hh2⟩ := (takeHex_iff 4 _ _).1 h3
    obtain ⟨g3, hc3, hl3, hh3⟩ := (takeHex_iff 4 _ _).1 h5
    obtain ⟨g4, hc4, hl4, hh4⟩ := (takeHex_iff 4 _ _).1 h7
    obtain ⟨g5, hc5, hl5, hh5⟩ := (takeHex_iff 12 _ _).1 h9
    refine ⟨g1, g2, g3, g4, g5, ?_, hl1, hl2, hl3, hl4, hl5,
      fun c hc => (isHexDigit_iff c).1 (hh1 c hc),
      fun c hc => (isHexDigit_iff c).1 (hh2 c hc),
      fun c hc => (isHexDigit_iff c).1 (hh3 c hc),
      fun c hc => (isHexDigit_iff c).1 (hh4 c hc),
      fun c hc => (isHexDigit_iff c).1 (hh5 c hc)⟩
    rw [hc1, h2, hc2, h4, hc3, h6, hc4, h8, hc5]
    simp
  · rintro ⟨g1, g2, g3, g4, g5, hs, hl1, hl2, hl3, hl4, hl5,
      hh1, hh2, hh3, hh4, hh5⟩
    have t1 : takeHex 8 s.toList =
        some ('-' :: (g2 ++ '-' :: (g3 ++ '-' :: (g4 ++ '-' :: g5)))) :=
      (takeHex_iff 8 _ _).2
        ⟨g1, hs, hl1, fun c hc => (isHexDigit_iff c).2 (hh1 c hc)⟩
    have t2 : expectDash ('-' :: (g2 ++ '-' :: (g3 ++ '-' :: (g4 ++ '-' :: g5))))
        = some (g2 ++ '-' :: (g3 ++ '-' :: (g4 ++ '-' :: g5))) :=
      (expectDash_iff _ _).2 rfl
    have t3 : takeHex 4 (g2 ++ '-' :: (g3 ++ '-' :: (g4 ++ '-' :: g5)))
        = some ('-' :: (g3 ++ '-' :: (g4 ++ '-' :: g5))) :=
      (takeHex_iff 4 _ _).2
        ⟨g2, rfl, hl2, fun c hc => (isHexDigit_iff c).2 (hh2 c hc)⟩
    have t4 : expectDash ('-' :: (g3 ++ '-' :: (g4 ++ '-' :: g5)))
        = some (g3 ++ '-' :: (g4 ++ '-' :: g5)) :=
      (expectDash_iff _ _).2 rfl
    have t5 : takeHex 4 (g3 ++ '-' :: (g4 ++ '-' :: g5))
        = some ('-' :: (g4 ++ '-' :: g5)) :=
      (takeHex_iff 4 _ _).2
        ⟨g3, rfl, hl3, fun c hc => (isHexDigit_iff c).2 (hh3 c hc)⟩
    have t6 : expectDash ('-' :: (g4 ++ '-' :: g5))
        = some (g4 ++ '-' :: g5) :=
      (expectDash_iff _ _).2 rfl
    have t7 : takeHex 4 (g4 ++ '-' :: g5) = some ('-' :: g5) :=
      (takeHex_iff 4 _ _).2
        ⟨g4, rfl, hl4, fun c hc => (isHexDigit_iff c).2 (hh4 c hc)⟩
    have t8 : expectDash ('-' :: g5) = some g5 := (expectDash_iff _ _).2 rfl
    have t9 : takeHex 12 g5 = some [] :=
      (takeHex_iff 12 _ _).2
        ⟨g5, by simp, hl5, fun c hc => (isHexDigit_iff c).2 (hh5 c hc)⟩
    exact ⟨_, ⟨_, ⟨_, ⟨_, ⟨_, ⟨_, ⟨_, ⟨_, t1, t2⟩, t3⟩, t4⟩, t5⟩, t6⟩, t7⟩,
      t8⟩, t9⟩

/-- C10.  The `cartId` validation is case-insensitive on hex digits: the
source regex `UUID_RE` accepts exactly the strings of the 8-4-4-4-12
hyphenated hexadecimal shape with letters in upper, lower or mixed case,
and on an otherwise-valid request `validateRequest` succeeds exactly when
the `cartId` has that shape, rejecting every other string with a
validation failure. -/
theorem c10_uuid_case_insensitive (s : String) :
    (UUID_RE_test s = true ↔ UuidShape s) ∧
    ((∃ req, validateRequest (templateBody s) = .ok req) ↔ UuidShape s) := by
  refine ⟨UUID_RE_test_iff s, ?_⟩
  have hred : validateRequest (templateBody s) =
      (if s = "" then Except.error "Missing or invalid cartId"
       else if ¬ UUID_RE_test s then Except.error "cartId must be a valid UUID"
       else Except.ok ⟨s, "customer-1",
         [⟨"prod-1", "T-Shirt", 2000, 2⟩, ⟨"prod-2", "Mug", 1500, 1⟩]⟩) := rfl
  rw [hred]
  by_cases hs0 : s = ""
  · subst hs0
    rw [if_pos rfl]
    constructor
    · rintro ⟨req, h⟩
      exact absurd h (by simp)
    · intro h
      exact absurd ((UUID_RE_test_iff "").2 h) (by decide)
  · rw [if_neg hs0]
    by_cases hu : UUID_RE_test s = true
    · rw [if_neg (by simp [hu])]
      constructor
      · intro _
        exact (UUID_RE_test_iff s).1 hu
      · intro _
        exact ⟨_, rfl⟩
    · rw [if_pos (by simp [hu])]
      constructor
      · rintro ⟨req, h⟩
        exact absurd h (by simp)
      · intro h
        exact absurd ((UUID_RE_test_iff s).2 h) hu

-- ---------------------------------------------------------------------------
-- Claim theorems: handler paths (C1, C9)
-- ---------------------------------------------------------------------------

/-- C1.  On the idempotency-probe hit path — the store already holds an
order `o` for the request's `cartId` — the handler terminates successfully
returning the stored order `o` unchanged, the trace shows exactly one store
read (no create, no payment capture), and no pricing result is applied to
the response.  Hence a second checkout with the same `cartId` (whatever its
items) answers with the first call's `orderId` and stored fields. -/
theorem c1_idempotent_probe_returns_stored (env : Env) (bs : String)
    (body : JsValue) (req : CheckoutRequest) (o : Order)
    (hparse : env.parse bs = some body)
    (hval : validateRequest body = .ok req)
    (hget : env.client.get req.cartId = .ok (some o)) :
    handler env (some bs) = (respOk o, [.storeGet req.cartId]) := by
  simp only [handler, Option.getD_some, hparse, hval, getOrderByCartId, hget]

theorem c1_idempotent_probe_returns_stored_witness :
    handler envDup (some "retry") = (respOk sampleOrder, [.storeGet sampleCartId]) :=
  c1_idempotent_probe_returns_stored envDup "retry" sampleBody
    ⟨sampleCartId, "customer-1", sampleItems⟩ sampleOrder rfl rfl rfl

/-- C9.  Whenever the event body fails to parse as JSON — in particular
when the body is absent, in which case the source coerces it to the empty
string with `event.body ?? ''` before parsing, and `JSON.parse('')`
throws — the handler answers 400 with message `Invalid JSON body` and makes
no store or payment invocation; it never reaches the 500 path. -/
theorem c9_invalid_json_is_400 (env : Env) (eventBody : Option String)
    (hparse : env.parse (eventBody.getD "") = none) :
    handler env eventBody = (validationError "Invalid JSON body", []) := by
  simp only [handler, hparse]

theorem c9_invalid_json_is_400_witness :
    handler envBadJson none = (validationError "Invalid JSON body", []) :=
  c9_invalid_json_is_400 envBadJson none rfl

-- ---------------------------------------------------------------------------
-- Validation soundness (C5)
-- ---------------------------------------------------------------------------

theorem validateItems_cons_ok (it : JsValue) (rest : List JsValue)
    (res : List CheckoutItem) (h : validateItems (it :: rest) = .ok res) :
    ∃ f pid nm up qt tail,
      it = .obj f ∧
      lookupField f "productId" = some (.str pid) ∧
      lookupField f "name" = some (.str nm) ∧
      lookupField f "unitPrice" = some (.num up) ∧
        isIntegerNum up = true ∧ 0 < up ∧
      lookupField f "quantity" = some (.num qt) ∧
        isIntegerNum qt = true ∧ 1 ≤ qt ∧
      validateItems rest = .ok tail ∧
      res = ⟨pid, nm, up.num.toNat, qt.num.toNat⟩ :: tail := by
  cases it with
  | obj f =>
    simp only [validateItems] at h
    split at h
    next pid heqp =>
      split at h
      next hpid => exact nomatch h
      next hpid =>
        split at h
        next nm heqn =>
          split at h
          next hnm => exact nomatch h
          next hnm =>
            split at h
            next up hequ =>
              split at h
              next hup =>
                split at h
                next qt heqq =>
                  split at h
                  next hqt =>
                    split at h
                    next m hrest => exact nomatch h
                    next tail hrest =>
                      rw [Bool.and_eq_true, decide_eq_true_eq] at hup hqt
                      refine ⟨f, pid, nm, up, qt, tail, rfl, heqp, heqn,
                        hequ, hup.1, hup.2, heqq, hqt.1, hqt.2, hrest, ?_⟩
                      cases h
                      rfl
                  next hqt => exact nomatch h
                next => exact nomatch h
              next hup => exact nomatch h
            next => exact nomatch h
        next => exact nomatch h
    next => exact nomatch h
  | null => exact nomatch h
  | bool b => exact nomatch h
  | num q => exact nomatch h
  | str s => exact nomatch h
  | arr xs => exact nomatch h

theorem validateItems_sound (its : List JsValue) :
    ∀ (res : List CheckoutItem), validateItems its = .ok res →
      ∀ item ∈ its, ∃ f, item = .obj f ∧
        (∀ u, lookupField f "unitPrice" = some (.num u) → 0 < u) ∧
        (∀ q, lookupField f "quantity" = some (.num q) → (1 : Rat) ≤ q) := by
  induction its with
  | nil =>
    intro res _ item h
    exact absurd h (by simp)
  | cons it rest ih =>
    intro res hok item hmem
    obtain ⟨f, pid, nm, up, qt, tail, hobj, -, -, hequ, -, hup, heqq, -, hqt,
      hrest, -⟩ := validateItems_cons_ok it rest res hok
    rcases List.mem_cons.1 hmem with rfl | hmem'
    · refine ⟨f, hobj, ?_, ?_⟩
      · intro u hu
        rw [hequ] at hu
        have : up = u := by simpa using hu
        subst this
        exact hup
      · intro q hq
        rw [heqq] at hq
        have : qt = q := by simpa using hq
        subst this
        exact hqt
    · exact ih tail hrest item hmem'

theorem validateRequest_obj_ok (fields : List (String × JsValue))
    (req : CheckoutRequest) (h : validateRequest (.obj fields) = .ok req) :
    ∃ cartId customerId rawItems,
      lookupField fields "cartId" = some (.str cartId) ∧
      lookupField fields "customerId" = some (.str customerId) ∧
      lookupField fields "items" = some (.arr rawItems) ∧
      rawItems ≠ [] ∧
      validateItems rawItems = .ok req.items := by
  simp only [validateRequest] at h
  split at h
  next cartId heqc =>
    split at h
    next hc0 => exact nomatch h
    next hc0 =>
      split at h
      next hu => exact nomatch h
      next hu =>
        split at h
        next customerId heqcu =>
          split at h
          next hcu0 => exact nomatch h
          next hcu0 =>
            split at h
            next rawItems heqi =>
              split at h
              next hemp => exact nomatch h
              next hemp =>
                split at h
                next m hvi => exact nomatch h
                next items hvi =>
                  refine ⟨cartId, customerId, rawItems, heqc, heqcu, heqi,
                    ?_, ?_⟩
                  · intro hnil
                    subst hnil
                    simp at hemp
                  · cases h
                    exact hvi
            next => exact nomatch h
        next => exact nomatch h
  next => exact nomatch h

/-- C5.  Any request whose parsed JSON object exhibits one of the claim's
defects — missing `cartId`, missing `customerId`, empty `items` array, an
item with non-positive `unitPrice`, or an item with `quantity < 1` — is
answered with status 400, error `VALIDATION_ERROR` and a specific message,
and the handler performs zero store and zero payment invocations. -/
theorem c5_validation_defects_rejected (env : Env) (bs : String)
    (fields : List (String × JsValue))
    (hparse : env.parse bs = some (.obj fields))
    (hdef : HasDefect fields) :
    ∃ m, handler env (some bs) = (validationError m, []) := by
  cases hv : validateRequest (.obj fields) with
  | error m =>
    exact ⟨m, by simp only [handler, Option.getD_some, hparse, hv]⟩
  | ok req =>
    exfalso
    obtain ⟨cartId, customerId, rawItems, hc, hcu, hits, hne, hvi⟩ :=
      validateRequest_obj_ok fields req hv
    rcases hdef with h | h | h | h | h
    · rw [hc] at h
      exact absurd h (by simp)
    · rw [hcu] at h
      exact absurd h (by simp)
    · rw [hits] at h
      have : rawItems = [] := by simpa using h
      exact hne this
    · obtain ⟨its, item, f, u, hits2, hmem, hobj, hu, hle⟩ := h
      rw [hits] at hits2
      have hits3 : rawItems = its := by simpa using hits2
      subst hits3
      obtain ⟨f', hobj', hupos, -⟩ :=
        validateItems_sound rawItems req.items hvi item hmem
      rw [hobj] at hobj'
      have hf : f = f' := by simpa using hobj'
      subst hf
      exact absurd (hupos u hu) (by exact not_lt.2 hle)
    · obtain ⟨its, item, f, q, hits2, hmem, hobj, hq, hlt⟩ := h
      rw [hits] at hits2
      have hits3 : rawItems = its := by simpa using hits2
      subst hits3
      obtain ⟨f', hobj', -, hqpos⟩ :=
        validateItems_sound rawItems req.items hvi item hmem
      rw [hobj] at hobj'
      have hf : f = f' := by simpa using hobj'
      subst hf
      exact absurd (hqpos q hq) (by exact not_le.2 hlt)

theorem c5_validation_defects_rejected_witness :
    ∃ m, handler envDefect (some "request") = (validationError m, []) :=
  c5_validation_defects_rejected envDefect "request" defectFields rfl
    (Or.inl rfl)

-- ---------------------------------------------------------------------------
-- Repository and handler path lemmas (C2, C6)
-- ---------------------------------------------------------------------------

theorem createOrder_created_eq (client : StoreClient) (o : Order)
    (r : CreateOrderResult) (h : createOrder client o = .ok r)
    (hc : r.created = true) : r = ⟨true, o⟩ := by
  simp only [createOrder] at h
  split at h
  next =>
    rw [Except.ok.injEq] at h
    exact h.symm
  next e => exact nomatch h
  next =>
    split at h
    next e => exact nomatch h
    next existing heq =>
      rw [Except.ok.injEq] at h
      rw [← h] at hc
      exact absurd hc (by simp)
    next => exact nomatch h

/-- Every 500 response of the handler is the fixed generic `internalError`
payload: no branch builds any other 500 body. -/
theorem handler_500_generic (env : Env) (eventBody : Option String)
    (h : (handler env eventBody).1.statusCode = 500) :
    (handler env eventBody).1 = internalError := by
  cases hp : env.parse (eventBody.getD "") with
  | none => simp [handler, hp, validationError] at h
  | some body =>
    cases hv : validateRequest body with
    | error m => simp [handler, hp, hv, validationError] at h
    | ok req =>
      cases hg : getOrderByCartId env.client req.cartId with
      | error e => simp [handler, hp, hv, hg]
      | ok oo =>
        cases oo with
        | some existing => simp [handler, hp, hv, hg, respOk] at h
        | none =>
          cases hc : createOrder env.client (candidateOrder env req) with
          | error e => simp [handler, hp, hv, hg, hc]
          | ok result =>
            by_cases hb : result.created = true
            · simp [handler, hp, hv, hg, hc, hb, respOk] at h
            · simp [handler, hp, hv, hg, hc, hb, respOk] at h

/-- C6.  When the conditional write reports a condition failure and the
subsequent re-read finds no record, `createOrder` surfaces an error (it
does not retry), and the handler maps this — like every post-validation
failure — to a 500 response with error `INTERNAL_ERROR` and the fixed
generic message, with no internal exception detail in the response body
(the thrown message, with its cartId detail, never appears there). -/
theorem c6_store_inconsistency_surfaces_500 (env : Env) (bs : String)
    (body : JsValue) (req : CheckoutRequest)
    (hparse : env.parse bs = some body)
    (hval : validateRequest body = .ok req)
    (hget : env.client.get req.cartId = .ok none)
    (hput : env.client.put (candidateOrder env req) = .condFailed) :
    createOrder env.client (candidateOrder env req) =
      .error ("Idempotency check failed: order for cartId " ++ req.cartId
        ++ " not found after conflict") ∧
    handler env (some bs) =
      (internalError,
        [.storeGet req.cartId, .storeCreate (candidateOrder env req)]) ∧
    (handler env (some bs)).1.body =
      .err "INTERNAL_ERROR" "An unexpected error occurred" := by
  have hcart : (candidateOrder env req).cartId = req.cartId := rfl
  have hco : createOrder env.client (candidateOrder env req) =
      .error ("Idempotency check failed: order for cartId " ++ req.cartId
        ++ " not found after conflict") := by
    simp only [createOrder, hput, getOrderByCartId, hcart, hget]
  have hh : handler env (some bs) =
      (internalError,
        [.storeGet req.cartId, .storeCreate (candidateOrder env req)]) := by
    simp only [handler, Option.getD_some, hparse, hval, getOrderByCartId,
      hget, hco]
  refine ⟨hco, hh, ?_⟩
  rw [hh]
  rfl

theorem c6_store_inconsistency_surfaces_500_witness :
    createOrder envGhost.client
        (candidateOrder envGhost ⟨sampleCartId, "customer-1", sampleItems⟩) =
      .error ("Idempotency check failed: order for cartId " ++ sampleCartId
        ++ " not found after conflict") ∧
    handler envGhost (some "request") =
      (internalError,
        [.storeGet sampleCartId,
          .storeCreate
            (candidateOrder envGhost
              ⟨sampleCartId, "customer-1", sampleItems⟩)]) ∧
    (handler envGhost (some "request")).1.body =
      .err "INTERNAL_ERROR" "An unexpected error occurred" :=
  c6_store_inconsistency_surfaces_500 envGhost "request" sampleBody
    ⟨sampleCartId, "customer-1", sampleItems⟩ rfl rfl rfl rfl

/-- C2.  In every execution of the handler, at most one payment capture
appears in the trace, and a capture event is always immediately preceded
by the conditional create of the very order being charged, with the store
having reported `created = true` for it: no capture on the probe-hit path,
none on the `created = false` path, none before or without creation. -/
theorem c2_capture_only_after_created (env : Env) (eventBody : Option String) :
    ((handler env eventBody).2.filter isPayment).length ≤ 1 ∧
    (∀ i oid amt,
      (handler env eventBody).2.get? i = some (.payment oid amt) →
      ∃ j o, j < i ∧ (handler env eventBody).2.get? j = some (.storeCreate o) ∧
        createOrder env.client o = .ok ⟨true, o⟩ ∧
        oid = o.orderId ∧ amt = o.total) := by
  cases hp : env.parse (eventBody.getD "") with
  | none =>
    have hh : handler env eventBody = (validationError "Invalid JSON body", []) := by
      simp only [handler, hp]
    rw [hh]
    refine ⟨by simp, ?_⟩
    intro i oid amt h'
    simp at h'
  | some body =>
    cases hv : validateRequest body with
    | error m =>
      have hh : handler env eventBody = (validationError m, []) := by
        simp only [handler, hp, hv]
      rw [hh]
      refine ⟨by simp, ?_⟩
      intro i oid amt h'
      simp at h'
    | ok req =>
      cases hg : getOrderByCartId env.client req.cartId with
      | error e =>
        have hh : handler env eventBody = (internalError, [.storeGet req.cartId]) := by
          simp only [handler, hp, hv, hg]
        rw [hh]
        refine ⟨by simp [isPayment], ?_⟩
        intro i oid amt h'
        rcases i with _ | i <;> simp at h'
      | ok oo =>
        cases oo with
        | some existing =>
          have hh : handler env eventBody = (respOk existing, [.storeGet req.cartId]) := by
            simp only [handler, hp, hv, hg]
          rw [hh]
          refine ⟨by simp [isPayment], ?_⟩
          intro i oid amt h'
          rcases i with _ | i <;> simp at h'
        | none =>
          cases hc : createOrder env.client (candidateOrder env req) with
          | error e =>
            have hh : handler env eventBody =
                (internalError,
                  [.storeGet req.cartId,
                    .storeCreate (candidateOrder env req)]) := by
              simp only [handler, hp, hv, hg, hc]
            rw [hh]
            refine ⟨by simp [isPayment], ?_⟩
            intro i oid amt h'
            rcases i with _ | _ | i <;> simp at h'
          | ok result =>
            by_cases hb : result.created = true
            · have hres : result = ⟨true, candidateOrder env req⟩ :=
                createOrder_created_eq env.client (candidateOrder env req)
                  result hc hb
              have hh : handler env eventBody =
                  (respOk (candidateOrder env req),
                    [.storeGet req.cartId,
                      .storeCreate (candidateOrder env req),
                      .payment (candidateOrder env req).orderId
                        (candidateOrder env req).total]) := by
                simp only [handler, hp, hv, hg, hc, hb, Bool.not_true,
                  Bool.false_eq_true, if_false]
              rw [hh]
              refine ⟨by simp [isPayment], ?_⟩
              intro i oid amt h'
              rcases i with _ | _ | _ | i
              · simp at h'
              · simp at h'
              · have h'' : (candidateOrder env req).orderId = oid ∧
                    (candidateOrder env req).total = amt := by simpa using h'
                refine ⟨1, candidateOrder env req, by omega, by simp, ?_,
                  h''.1.symm, h''.2.symm⟩
                rw [hc, hres]
              · simp at h'
            · have hh : handler env eventBody =
                  (respOk result.order,
                    [.storeGet req.cartId,
                      .storeCreate (candidateOrder env req)]) := by
                simp only [handler, hp, hv, hg, hc]
                rw [if_pos (by simp [Bool.eq_false_iff.2 hb])]
              rw [hh]
              refine ⟨by simp [isPayment], ?_⟩
              intro i oid amt h'
              rcases i with _ | _ | i <;> simp at h'

theorem c2_capture_only_after_created_witness :
    ((handler envFresh (some "request")).2.filter isPayment).length ≤ 1 ∧
    (∀ i oid amt,
      (handler envFresh (some "request")).2.get? i = some (.payment oid amt) →
      ∃ j o, j < i ∧
        (handler envFresh (some "request")).2.get? j =
          some (.storeCreate o) ∧
        createOrder envFresh.client o = .ok ⟨true, o⟩ ∧
        oid = o.orderId ∧ amt = o.total) :=
  c2_capture_only_after_created envFresh (some "request")

end SmartCheckout
